import Mathlib

/-
Verification of the hollywoo persistence-and-reconciliation engine.

This file gives a shallow embedding of the relational store defined in
database.py (schema `qinit`, query map `qdb`, class `Database`) and of the
directory scanner in scanner.py (class `Scanner`), together with theorems
about the behaviour of those definitions.

Modelling conventions:
  - a table is a list of rows in insertion order; `INTEGER PRIMARY KEY`
    identifiers are modelled by a next-id counter starting at 1, matching
    sqlite rowid assignment and `cursor.lastrowid`;
  - timestamps (`datetime` values stored via `int(x.timestamp())`) are
    modelled as `Int` seconds;
  - a statement that sqlite rejects with `IntegrityError` (UNIQUE, FOREIGN
    KEY, CHECK) is modelled as `Except.error Err.integrity`; a statement that
    fails to prepare (references a column that does not exist) is modelled as
    `Except.error Err.operational`, matching `sqlite3.OperationalError`;
  - the `with self.db:` block of sqlite3 commits on success and rolls the
    whole transaction back on an exception; `runScan` and `folder_add_run`
    model this by returning the pre-state together with the error.
-/

namespace Hollywoo

/-- Error class of a failed SQL statement: `Err.integrity` models
`sqlite3.IntegrityError` (UNIQUE / FOREIGN KEY / CHECK violations),
`Err.operational` models `sqlite3.OperationalError` (e.g. a query that
references a nonexistent column). -/
inductive Err where
  | integrity
  | operational
deriving DecidableEq

/-- Row of the `folder` table from `qinit`: `id INTEGER PRIMARY KEY`,
`path TEXT UNIQUE NOT NULL`, `last_scan INTEGER` (nullable),
`remote INTEGER NOT NULL DEFAULT 0`. -/
structure FolderRow where
  id : Int
  path : String
  last_scan : Option Int
  remote : Bool
deriving DecidableEq

/-- Row of the `video` table from `qinit`. `hidden` is kept as the stored
integer (sqlite has no separate boolean type and the Python code passes the
raw column value around). -/
structure VideoRow where
  id : Int
  folder_id : Int
  path : String
  added : Int
  mtime : Int
  title : String
  cksum : Option String
  xres : Option Int
  yres : Option Int
  duration : Option Int
  hidden : Int
deriving DecidableEq

/-- Row of the `tag` table: `id INTEGER PRIMARY KEY`, `name TEXT UNIQUE NOT NULL`. -/
structure TagRow where
  id : Int
  name : String
deriving DecidableEq

/-- Row of the `tag_vid_link` table: `id`, `tag_id`, `vid_id`,
UNIQUE `(tag_id, vid_id)`, both foreign keys `ON DELETE CASCADE`. -/
structure TagLinkRow where
  id : Int
  tag_id : Int
  vid_id : Int
deriving DecidableEq

/-- Row of the `person_vid_link` table: `id`, `pid`, `vid`, `role`,
UNIQUE `(pid, vid, role)`, foreign keys `ON DELETE CASCADE`. -/
structure PersonLinkRow where
  id : Int
  pid : Int
  vid : Int
  role : String
deriving DecidableEq

/-- Row of the `prog_vid_link` table: `id`, `vid_id`, `prog_id`,
UNIQUE `(vid_id, prog_id)`, foreign keys `ON DELETE CASCADE`. -/
structure ProgLinkRow where
  id : Int
  vid_id : Int
  prog_id : Int
deriving DecidableEq

/-- State of the sqlite database: the tables relevant to the claims, in
insertion order, plus the rowid counters for folder and video. -/
structure DB where
  folders : List FolderRow
  videos : List VideoRow
  tagRows : List TagRow
  tagLinks : List TagLinkRow
  personLinks : List PersonLinkRow
  progLinks : List ProgLinkRow
  nextFolderId : Int
  nextVideoId : Int
deriving DecidableEq

/-- Freshly created database, as `Database.__create_db` leaves it. -/
def dbEmpty : DB := ⟨[], [], [], [], [], [], 1, 1⟩

/-- In-memory `Folder` dataclass from model.py: `fid` defaults to -1 until
the store assigns an identifier. -/
structure Folder where
  fid : Int
  path : String
  last_scan : Option Int
  remote : Bool
deriving DecidableEq

/-- In-memory `Video` dataclass from model.py. `title` is `Optional[str]`,
`resolution` is a pair whose components the row decoders may fill with NULL
column values, `hidden` carries whatever integer the row decoders put there
(Python dataclasses do not coerce). -/
structure Video where
  vid : Int
  folder_id : Int
  path : String
  added : Int
  mtime : Int
  title : Option String
  cksum : Option String
  resolution : Option Int × Option Int
  duration : Option Int
  hidden : Int
deriving DecidableEq

/-- In-memory `Tag` dataclass from model.py. -/
structure Tag where
  tid : Int
  name : String
deriving DecidableEq

/-- Embeds `Database.folder_add` executing `qdb[qid.FolderAdd]`
(`INSERT INTO folder (path, last_scan, remote) VALUES (?, ?, ?)`): the
UNIQUE constraint on `path` rejects a duplicate; on success the row is
appended, and the returned object carries the assigned `lastrowid` in `fid`
exactly as `f.fid = fid` does. -/
def folder_add (st : DB) (f : Folder) : Except Err (DB × Folder) :=
  if st.folders.any (fun g => g.path == f.path) then .error .integrity
  else
    .ok ({ st with
            folders := st.folders ++ [⟨st.nextFolderId, f.path, f.last_scan, f.remote⟩],
            nextFolderId := st.nextFolderId + 1 },
         { f with fid := st.nextFolderId })

/-- Transactional wrapper for a lone `folder_add` call: the sqlite
`with self.db:` commits the new state on success and keeps the old state
when the statement raised. -/
def folder_add_run (st : DB) (f : Folder) : DB × Option Err :=
  match folder_add st f with
  | .ok (st2, _) => (st2, none)
  | .error e => (st, some e)

/-- Embeds `Database.folder_update_scan` executing `qdb[qid.FolderUpdateScan]`
(`UPDATE folder SET last_scan = ? WHERE id = ?`). -/
def folder_update_scan (st : DB) (fid : Int) (s : Int) : DB :=
  { st with
     folders := st.folders.map
       (fun r => if r.id == fid then { r with last_scan := some s } else r) }

/-- Embeds `Database.folder_get_by_path` (`SELECT id, last_scan, remote FROM
folder WHERE path = ?`, `fetchone`, decoded into a `Folder`). -/
def folder_get_by_path (st : DB) (p : String) : Option Folder :=
  (st.folders.find? (fun r => r.path == p)).map
    (fun r => ⟨r.id, r.path, r.last_scan, r.remote⟩)

/-- Embeds `Database.folder_get_all` (`SELECT id, path, last_scan, remote
FROM folder`); note the query has no ORDER BY clause, so the rows come back
in table order. -/
def folder_get_all (st : DB) : List Folder :=
  st.folders.map (fun r => ⟨r.id, r.path, r.last_scan, r.remote⟩)

/-- Embeds `Database.video_add` executing `qdb[qid.VideoAdd]`
(`INSERT INTO video (folder_id, path, added, mtime, xres, yres, duration)`):
the omitted columns take their declared defaults (`title` the empty string,
`cksum` NULL, `hidden` 0), `added` is the insertion clock `now`, and the
schema constraints — FOREIGN KEY on `folder_id`, UNIQUE `(folder_id, path)`,
CHECK `(xres IS NULL) = (yres IS NULL)`, CHECK `duration IS NULL OR
duration > 0` — reject the insert with an integrity error. On success the
method mutates the passed object: `v.added = now` and `v.vid = lastrowid`. -/
def video_add (st : DB) (v : Video) (now : Int) : Except Err (DB × Video) :=
  if !(st.folders.any (fun g => g.id == v.folder_id)) then .error .integrity
  else if st.videos.any (fun w => w.folder_id == v.folder_id && w.path == v.path) then
    .error .integrity
  else if v.resolution.1.isNone != v.resolution.2.isNone then .error .integrity
  else if (match v.duration with | some d => decide (d ≤ 0) | none => false) then
    .error .integrity
  else
    .ok ({ st with
            videos := st.videos ++
              [⟨st.nextVideoId, v.folder_id, v.path, now, v.mtime, "", none,
                v.resolution.1, v.resolution.2, v.duration, 0⟩],
            nextVideoId := st.nextVideoId + 1 },
         { v with added := now, vid := st.nextVideoId })

/-- Embeds `Database.video_set_mtime` (`UPDATE video SET mtime = ? WHERE id = ?`). -/
def video_set_mtime (st : DB) (vid : Int) (m : Int) : DB :=
  { st with
     videos := st.videos.map
       (fun r => if r.id == vid then { r with mtime := m } else r) }

/-- Embeds `Database.video_set_title` (`UPDATE video SET title = ? WHERE id = ?`). -/
def video_set_title (st : DB) (vid : Int) (t : String) : DB :=
  { st with
     videos := st.videos.map
       (fun r => if r.id == vid then { r with title := t } else r) }

/-- Row decoding shared by `video_get_by_id`, `video_get_by_path` and
`video_get_by_folder`: every named column lands in the field of the same
name (in particular `hidden` comes from the stored `hidden` column). -/
def rowToVideo (r : VideoRow) : Video :=
  ⟨r.id, r.folder_id, r.path, r.added, r.mtime, some r.title, r.cksum,
   (r.xres, r.yres), r.duration, r.hidden⟩

/-- Row decoding performed by `Database.video_get_all`: the code passes
`hidden=row[0]`, i.e. the value of the `id` column (the first selected
column), into the `hidden` field instead of `row[10]`. -/
def rowToVideoAll (r : VideoRow) : Video :=
  ⟨r.id, r.folder_id, r.path, r.added, r.mtime, some r.title, r.cksum,
   (r.xres, r.yres), r.duration, r.id⟩

/-- Embeds `Database.video_get_by_path` (`SELECT ... FROM video WHERE
path = ?`, `fetchone`): the first row in table order whose path matches. -/
def video_get_by_path (st : DB) (p : String) : Option Video :=
  (st.videos.find? (fun r => r.path == p)).map rowToVideo

/-- Embeds `Database.video_get_by_id` (`SELECT ... FROM video WHERE id = ?`,
`fetchone`). -/
def video_get_by_id (st : DB) (vid : Int) : Option Video :=
  (st.videos.find? (fun r => r.id == vid)).map rowToVideo

/-- Bytewise lexicographic comparison of code points, one consistent
refinement of the BINARY collation sqlite uses for `ORDER BY` on TEXT columns
(for valid UTF-8, memcmp order and code-point order agree). -/
def leChars : List Char → List Char → Bool
  | [], _ => true
  | _ :: _, [] => false
  | a :: as, b :: bs =>
    if a.toNat = b.toNat then leChars as bs else decide (a.toNat < b.toNat)

/-- String comparison used to model `ORDER BY` over TEXT. -/
def leStr (a b : String) : Bool := leChars a.data b.data

/-- Ordered insertion for the sort modelling `ORDER BY`. -/
def insertLe (key : α → String) (x : α) : List α → List α
  | [] => [x]
  | y :: ys => if leStr (key x) (key y) then x :: y :: ys else y :: insertLe key x ys

/-- Insertion sort on a string key: the row order produced by `ORDER BY`. -/
def sortByKey (key : α → String) : List α → List α
  | [] => []
  | x :: xs => insertLe key x (sortByKey key xs)

/-- Boolean check that a list is ordered by the given string key. -/
def sortedByKey (key : α → String) : List α → Bool
  | [] => true
  | [_] => true
  | x :: y :: r => leStr (key x) (key y) && sortedByKey key (y :: r)

/-- Embeds `Database.video_get_all` (`SELECT id, folder_id, path, ... FROM
video ORDER BY path`), with the `hidden=row[0]` decoding the code performs. -/
def video_get_all (st : DB) : List Video :=
  (sortByKey VideoRow.path st.videos).map rowToVideoAll

/-- Embeds `Database.tag_get_all` (`SELECT id, name FROM tag ORDER BY name`). -/
def tag_get_all (st : DB) : List Tag :=
  (sortByKey TagRow.name st.tagRows).map (fun t => ⟨t.id, t.name⟩)

/-- Column names of the `tag` table as declared in `qinit`. -/
def tagTableColumns : List String := ["id", "name"]

/-- Minimal shape of a single-table query for the purpose of name
resolution at prepare time: the columns its FROM clause provides, and the
column its WHERE clause references. -/
structure SimpleQuery where
  fromCols : List String
  whereCol : String

/-- Preparation succeeds only if the WHERE clause resolves against the
columns the FROM clause provides. -/
def prepareOk (q : SimpleQuery) : Bool := q.fromCols.contains q.whereCol

/-- The query `qdb[qid.TagLinkGetByVid]`: `SELECT t.id, t.name FROM tag t
WHERE t.vid_id = ?` — its only FROM table is `tag`, and its WHERE clause
references `vid_id`. -/
def tagLinkGetByVidQuery : SimpleQuery := ⟨tagTableColumns, "vid_id"⟩

/-- Embeds `Database.tag_link_get_by_vid`: `cur.execute` prepares
`qdb[qid.TagLinkGetByVid]` before running it; if preparation resolved all
names the rows would be decoded into `Tag` objects, but the `tag` table has
no `vid_id` column, so the branch returning rows is unreachable and the call
raises `sqlite3.OperationalError`. -/
def tag_link_get_by_vid (st : DB) (vid : Int) : Except Err (List Tag) :=
  if prepareOk tagLinkGetByVidQuery then .ok [] else .error .operational

/-- One discovered directory entry, as the scanner sees it: the joined
path from `os.walk`, the cached `os.stat` data (`st_size`, `st_mtime` as
integer seconds, and whether stat reports a regular file — the last is not
consulted anywhere in scanner.py and is carried only so the skip rule of
the specification can be stated), and the outcome `Scanner._get_metadata` would
produce for this path (`None` entries of the defaultdict are `none`). -/
structure FileInfo where
  path : String
  size : Nat
  mtime : Int
  regular : Bool
  probeRes : Option (Int × Int)
  probeDur : Option Int
  probeTitle : Option String
deriving DecidableEq

/-- Scanner threshold `min_size = 1024 * 1024 * 100` (100 MiB). -/
def min_size : Nat := 1024 * 1024 * 100

/-- The alternatives of `suffix_pat`, `[.](avi|mp4|m[4k]v|mpe?g|wmv|m2ts)$`,
expanded: the pattern accepts exactly a literal dot followed by one of these,
at the end of the subject. -/
def videoSuffixes : List String :=
  [".avi", ".mp4", ".m4v", ".mkv", ".mpg", ".mpeg", ".wmv", ".m2ts"]

/-- ASCII lowercasing of one character, the effect of `re.I` on the
letters appearing in `suffix_pat`. -/
def lowerChar (c : Char) : Char := Char.toLower c

/-- The Python anchor `$` (without `re.M`) matches at the end of the string or just
before a newline that ends the string, so a single trailing newline is
ignored when anchoring the suffix. -/
def dropFinalNewline (l : List Char) : List Char :=
  if l.getLast? == some (Char.ofNat 10) then l.dropLast else l

/-- Result of `suffix_pat.search(f) is not None`: the subject,
case-folded, ends (up to one final newline) in one of the recognized
video-container suffixes. -/
def suffixMatch (p : String) : Bool :=
  let cs := (dropFinalNewline p.data).map lowerChar
  videoSuffixes.any (fun e => e.data.isSuffixOf cs)

/-- Embeds `Scanner.skip_file`: skip when `suffix_pat` does not match, else
skip when the stat size is below `min_size`, else keep. -/
def skip_file (f : FileInfo) : Bool :=
  if suffixMatch f.path = false then true
  else if f.size < min_size then true
  else false

/-- Modelled from the spec: the per-file skip rule as section 4.3 states it,
`skip if the extension does not match the recognized video-container set, or
if its size is below 100 MiB, or if it is not a regular file` — including
the regular-file condition, which `Scanner.skip_file` does not implement. -/
def skip_file_spec (f : FileInfo) : Bool :=
  !(suffixMatch f.path) || decide (f.size < min_size) || !f.regular

/-- Step 2/3 of the per-file loop of `Scanner.scan`: look the path up in
the store; if a `Video` is found and the on-disk modification time is newer
than the stored one, update the stored `mtime`. -/
def reconcileExisting (st : DB) (f : FileInfo) : DB :=
  match video_get_by_path st f.path with
  | some v => if v.mtime < f.mtime then video_set_mtime st v.vid f.mtime else st
  | none => st

/-- The `Video` object `Scanner.scan` builds for a discovered file from the
probe results, with the resolution falling back to the `(0, 0)` sentinel
when the probe reported none. -/
def freshVideo (rootFid : Int) (now : Int) (f : FileInfo) : Video :=
  ⟨-1, rootFid, f.path, now, f.mtime, none, none,
   (some (f.probeRes.getD (0, 0)).1, some (f.probeRes.getD (0, 0)).2),
   f.probeDur, 0⟩

/-- Embeds the body of the per-file loop of `Scanner.scan` for one
non-skipped file: look the path up and reconcile the stored mtime; then —
with no `continue` separating the found case from the new-file case — probe
metadata, build a fresh `Video` and insert it, setting the title afterward
when the probe returned a non-empty one. -/
def processOne (st : DB) (rootFid : Int) (now : Int) (f : FileInfo) : Except Err DB :=
  match video_add (reconcileExisting st f) (freshVideo rootFid now f) now with
  | .error e => .error e
  | .ok (st2, v2) =>
    match f.probeTitle with
    | some t => if 0 < t.length then .ok (video_set_title st2 v2.vid t) else .ok st2
    | none => .ok st2

/-- Folds `processOne` over the discovered files in walk order, recording
which paths reached the metadata probe (every non-skipped file does, before
its insert is attempted); the first raised error aborts the walk. -/
def processFiles (rootFid : Int) (now : Int) : DB → List FileInfo → Except Err DB × List String
  | st, [] => (.ok st, [])
  | st, f :: rest =>
    if skip_file f then processFiles rootFid now st rest
    else
      match processOne st rootFid now f with
      | .ok st2 =>
        let r := processFiles rootFid now st2 rest
        (r.1, f.path :: r.2)
      | .error e => (.error e, [f.path])

/-- Embeds `Scanner.scan` inside its `with self.db:` block: find or create
the root `Folder`, process every discovered file, then stamp the `last_scan`
of that folder with the current time. The second component is the probe log of
`processFiles`. `now` stands for the clock during this run. -/
def scanT (st : DB) (rootPath : String) (files : List FileInfo) (now : Int) :
    Except Err DB × List String :=
  match folder_get_by_path st rootPath with
  | some root =>
    let r := processFiles root.fid now st files
    (r.1.map (fun st1 => folder_update_scan st1 root.fid now), r.2)
  | none =>
    match folder_add st ⟨-1, rootPath, none, false⟩ with
    | .error e => (.error e, [])
    | .ok (st0, root) =>
      let r := processFiles root.fid now st0 files
      (r.1.map (fun st1 => folder_update_scan st1 root.fid now), r.2)

/-- Transactional result of one `Scanner.scan` invocation: the
`with self.db:` block commits the new state when the body ran through and
rolls the whole transaction back when any statement raised, re-raising the
error to the caller. -/
def runScan (st : DB) (rootPath : String) (files : List FileInfo) (now : Int) :
    DB × Option Err :=
  match (scanT st rootPath files now).1 with
  | .ok st2 => (st2, none)
  | .error e => (st, some e)

/-- Paths for which `Scanner._get_metadata` ran during the scan (observable
outside the transaction: the probe is an external process invocation that a
rollback does not undo). -/
def scanProbeLog (st : DB) (rootPath : String) (files : List FileInfo) (now : Int) :
    List String :=
  (scanT st rootPath files now).2

/-- Embeds `DELETE FROM video WHERE id = ?` under the schema of `qinit`
with `PRAGMA foreign_keys = true`: the three link tables declare
`FOREIGN KEY ... REFERENCES video (id) ON DELETE CASCADE`, so every link
row referencing the deleted video goes with it. -/
def video_delete_cascade (st : DB) (vid : Int) : DB :=
  { st with
     videos := st.videos.filter (fun r => !(r.id == vid)),
     tagLinks := st.tagLinks.filter (fun l => !(l.vid_id == vid)),
     personLinks := st.personLinks.filter (fun l => !(l.vid == vid)),
     progLinks := st.progLinks.filter (fun l => !(l.vid_id == vid)) }

/-- Embeds `DELETE FROM folder WHERE id = ?` under the schema of `qinit`
with `PRAGMA foreign_keys = true`: `video.folder_id` declares `ON DELETE
CASCADE`, so the videos of the folder are deleted, and the cascade continues
through the link tables referencing those videos. -/
def folder_delete_cascade (st : DB) (fid : Int) : DB :=
  let removed := (st.videos.filter (fun r => r.folder_id == fid)).map VideoRow.id
  { st with
     folders := st.folders.filter (fun r => !(r.id == fid)),
     videos := st.videos.filter (fun r => !(r.folder_id == fid)),
     tagLinks := st.tagLinks.filter (fun l => !(removed.contains l.vid_id)),
     personLinks := st.personLinks.filter (fun l => !(removed.contains l.vid)),
     progLinks := st.progLinks.filter (fun l => !(removed.contains l.vid_id)) }

/-- Invariants sqlite maintains for the folder table: distinct rowids,
distinct paths (UNIQUE), and every rowid below the next one to be
assigned. -/
def DBwf (st : DB) : Prop :=
  (st.folders.map FolderRow.id).Nodup ∧
  (st.folders.map FolderRow.path).Nodup ∧
  ∀ fr ∈ st.folders, fr.id < st.nextFolderId

/-- The concrete scenario of spec section 8: one file `a.mp4` of 150 MiB
with resolution 1920x1080 and duration 5400000 ms, untitled. -/
def aFile : FileInfo :=
  ⟨"/m/a.mp4", 1024 * 1024 * 150, 100, true, some (1920, 1080), some 5400000, none⟩

/-- The same file after its on-disk modification time advanced. -/
def aFileTouched : FileInfo :=
  ⟨"/m/a.mp4", 1024 * 1024 * 150, 150, true, some (1920, 1080), some 5400000, none⟩

/-- Database state after the first (successful) scan of `/m` containing
`aFile`, at clock 1000. -/
def stScanned : DB :=
  ⟨[⟨1, "/m", some 1000, false⟩],
   [⟨1, 1, "/m/a.mp4", 1000, 100, "", none, some 1920, some 1080, some 5400000, 0⟩],
   [], [], [], [], 2, 2⟩

/-- A discovered entry that stat does not report as a regular file, with a
recognized suffix and a size above the threshold. -/
def nonRegularBig : FileInfo :=
  ⟨"/m/dev.mp4", 1024 * 1024 * 150, 0, false, none, none, none⟩

/-- Store holding folders inserted as `/b` then `/a`, exercising the
ordering of `folder_get_all`. -/
def stTwoFolders : DB :=
  ⟨[⟨1, "/b", none, false⟩, ⟨2, "/a", none, false⟩], [], [], [], [], [], 3, 1⟩

/-- A caller-side `Folder` object before any store-assigned identifier. -/
def fFolder : Folder := ⟨-1, "/a", none, false⟩

/-- Store after `folder_add dbEmpty fFolder` succeeded. -/
def stOneFolder : DB := ⟨[⟨1, "/a", none, false⟩], [], [], [], [], [], 2, 1⟩

/-- The object `folder_add` hands back for `fFolder`: identifier 1 assigned. -/
def fFolderAdded : Folder := ⟨1, "/a", none, false⟩

/-- A stored video row with identifier 1 and hidden flag 0. -/
def vRow : VideoRow := ⟨1, 1, "/m/a.mp4", 0, 0, "", none, none, none, none, 0⟩

/-- Store holding one folder and the single video row `vRow`. -/
def stOneVideo : DB := ⟨[⟨1, "/m", none, false⟩], [vRow], [], [], [], [], 2, 2⟩

/-- Store with one folder, one video and one link row of each kind
referencing that video, for exercising the delete cascades. -/
def stLinked : DB :=
  ⟨[⟨1, "/m", none, false⟩], [vRow], [⟨1, "Action"⟩], [⟨1, 1, 1⟩],
   [⟨1, 1, 1, "Actor"⟩], [⟨1, 1, 1⟩], 2, 2⟩

/-- A caller-side `Video` object carrying junk in every field that
`video_add` is supposed to ignore. -/
def vJunk : Video :=
  ⟨-1, 1, "/v.mp4", 77, 5, some "X", some "deadbeef", (some 1, some 2), some 9, 1⟩

/-- Lexicographic code-point comparison is total. -/
theorem leChars_total : ∀ a b : List Char, leChars a b = true ∨ leChars b a = true := by
  intro a
  induction a with
  | nil => intro b; left; rfl
  | cons x xs ih =>
    intro b
    cases b with
    | nil => right; rfl
    | cons y ys =>
      rcases Nat.lt_trichotomy x.toNat y.toNat with h | h | h
      · left
        simp only [leChars, if_neg (Nat.ne_of_lt h)]
        exact decide_eq_true h
      · rcases ih ys with h2 | h2
        · left; simp only [leChars, if_pos h]; exact h2
        · right; simp only [leChars, if_pos h.symm]; exact h2
      · right
        simp only [leChars, if_neg (Nat.ne_of_lt h)]
        exact decide_eq_true h

/-- String comparison used for `ORDER BY` is total. -/
theorem leStr_total (a b : String) : leStr a b = true ∨ leStr b a = true :=
  leChars_total a.data b.data

/-- Inserting into a key-ordered list keeps it key-ordered. -/
theorem insertLe_sorted (key : α → String) (x : α) :
    ∀ l, sortedByKey key l = true → sortedByKey key (insertLe key x l) = true := by
  intro l
  induction l with
  | nil => intro _; rfl
  | cons y ys ih =>
    intro hs
    by_cases hxy : leStr (key x) (key y) = true
    · simpa [insertLe, hxy, sortedByKey] using hs
    · have hyx : leStr (key y) (key x) = true := (leStr_total (key x) (key y)).resolve_left hxy
      cases ys with
      | nil => simp [insertLe, hxy, sortedByKey, hyx]
      | cons z zs =>
        have hyz : leStr (key y) (key z) = true := by
          simp only [sortedByKey, Bool.and_eq_true] at hs
          exact hs.1
        have hs2 : sortedByKey key (z :: zs) = true := by
          simp only [sortedByKey, Bool.and_eq_true] at hs
          exact hs.2
        have hrec := ih hs2
        by_cases hxz : leStr (key x) (key z) = true
        · simp [insertLe, hxy, hxz, sortedByKey, hyx, hs2]
        · have hrec2 : sortedByKey key (z :: insertLe key x zs) = true := by
            simpa [insertLe, hxz] using hrec
          simp [insertLe, hxy, hxz, sortedByKey, hyz, hrec2]

/-- The insertion sort modelling `ORDER BY` produces a key-ordered list. -/
theorem sortByKey_sorted (key : α → String) :
    ∀ l, sortedByKey key (sortByKey key l) = true := by
  intro l
  induction l with
  | nil => rfl
  | cons x xs ih => exact insertLe_sorted key x (sortByKey key xs) ih

/-- Membership is preserved by ordered insertion. -/
theorem mem_insertLe (key : α → String) (x a : α) :
    ∀ l, (a ∈ insertLe key x l ↔ a = x ∨ a ∈ l) := by
  intro l
  induction l with
  | nil => simp [insertLe]
  | cons y ys ih =>
    by_cases hxy : leStr (key x) (key y) = true
    · simp [insertLe, hxy]
    · simp only [insertLe, if_neg hxy, List.mem_cons, ih]
      tauto

/-- Membership is preserved by the sort modelling `ORDER BY`. -/
theorem mem_sortByKey (key : α → String) (a : α) :
    ∀ l, (a ∈ sortByKey key l ↔ a ∈ l) := by
  intro l
  induction l with
  | nil => simp [sortByKey]
  | cons x xs ih => simp [sortByKey, mem_insertLe, ih]

/-- Orderedness of a mapped list reduces to orderedness under the composed key. -/
theorem sortedByKey_map (key : β → String) (f : α → β) :
    ∀ l : List α, sortedByKey key (l.map f) = sortedByKey (fun a => key (f a)) l
  | [] => rfl
  | [_] => rfl
  | x :: y :: r => by
    have ih := sortedByKey_map key f (y :: r)
    simp only [List.map_cons] at ih
    simp only [List.map_cons, sortedByKey, ih]

/-- A successful insert through `video_add` leaves the folder table and its
rowid counter untouched. -/
theorem video_add_folders (st : DB) (v : Video) (now : Int) (st2 : DB) (v2 : Video)
    (h : video_add st v now = .ok (st2, v2)) :
    st2.folders = st.folders ∧ st2.nextFolderId = st.nextFolderId := by
  unfold video_add at h
  split at h
  · exact absurd h (by simp)
  · split at h
    · exact absurd h (by simp)
    · split at h
      · exact absurd h (by simp)
      · split at h
        · exact absurd h (by simp)
        · simp only [Except.ok.injEq, Prod.mk.injEq] at h
          rw [← h.1]
          exact ⟨rfl, rfl⟩

/-- The mtime reconciliation step leaves the folder table and its rowid
counter untouched. -/
theorem reconcileExisting_folders (st : DB) (f : FileInfo) :
    (reconcileExisting st f).folders = st.folders ∧
    (reconcileExisting st f).nextFolderId = st.nextFolderId := by
  unfold reconcileExisting
  rcases video_get_by_path st f.path with _ | v
  · exact ⟨rfl, rfl⟩
  · dsimp only
    split
    · exact ⟨rfl, rfl⟩
    · exact ⟨rfl, rfl⟩

/-- Processing one file leaves the folder table and its rowid counter
untouched. -/
theorem processOne_folders (st : DB) (fid now : Int) (f : FileInfo) (st2 : DB)
    (h : processOne st fid now f = .ok st2) :
    st2.folders = st.folders ∧ st2.nextFolderId = st.nextFolderId := by
  unfold processOne at h
  have hrec := reconcileExisting_folders st f
  rcases hadd : video_add (reconcileExisting st f) (freshVideo fid now f) now with e | p
  · rw [hadd] at h
    exact absurd h (by simp)
  · obtain ⟨stm, v2⟩ := p
    rw [hadd] at h
    have hfol := video_add_folders _ _ _ stm v2 hadd
    rcases ht : f.probeTitle with _ | t <;> rw [ht] at h
    · simp only [Except.ok.injEq] at h
      rw [← h]
      exact ⟨hfol.1.trans hrec.1, hfol.2.trans hrec.2⟩
    · simp only at h
      split at h <;>
        simp only [Except.ok.injEq] at h <;>
          rw [← h] <;>
            exact ⟨hfol.1.trans hrec.1, hfol.2.trans hrec.2⟩

/-- The file-processing fold leaves the folder table and its rowid counter
untouched whenever it runs through. -/
theorem processFiles_folders (fid now : Int) :
    ∀ (files : List FileInfo) (st st2 : DB),
      (processFiles fid now st files).1 = .ok st2 →
      st2.folders = st.folders ∧ st2.nextFolderId = st.nextFolderId := by
  intro files
  induction files with
  | nil =>
    intro st st2 h
    simp only [processFiles, Except.ok.injEq] at h
    rw [← h]
    exact ⟨rfl, rfl⟩
  | cons f rest ih =>
    intro st st2 h
    simp only [processFiles] at h
    split at h
    · exact ih st st2 h
    · rcases hp : processOne st fid now f with e | stm
      · rw [hp] at h
        exact absurd h (by simp)
      · rw [hp] at h
        simp only at h
        have h1 := processOne_folders st fid now f stm hp
        have h2 := ih stm st2 h
        exact ⟨h2.1.trans h1.1, h2.2.trans h1.2⟩

/-- Looking a member row up by its identifier finds that row when the
identifiers in the table are distinct. -/
theorem find?_id_of_nodup (l : List VideoRow) (r : VideoRow)
    (hn : (l.map VideoRow.id).Nodup) (hm : r ∈ l) :
    l.find? (fun w => w.id == r.id) = some r := by
  induction l with
  | nil => cases hm
  | cons a t ih =>
    rw [List.map_cons, List.nodup_cons] at hn
    rcases List.mem_cons.mp hm with heq | hmt
    · subst heq
      simp [List.find?]
    · by_cases hpa : a.id = r.id
      · exact absurd (hpa ▸ List.mem_map_of_mem VideoRow.id hmt) hn.1
      · have : (a.id == r.id) = false := by
          simp [hpa]
        simp only [List.find?, this]
        exact ih hn.2 hmt

/-- C1 (code bug): a first scan of `/m` holding the 150 MiB file `a.mp4`
succeeds and indexes it, but the second invocation over the unchanged tree
is not idempotent — having found the video already indexed, the loop falls
through to a second `video_add` for the same `(folder_id, path)`, the UNIQUE
constraint raises an integrity error, and the whole transaction rolls back,
so no rows change and `last_scan` does not advance. -/
theorem claim1_second_scan_aborts :
    runScan dbEmpty "/m" [aFile] 1000 = (stScanned, none) ∧
    runScan stScanned "/m" [aFile] 2000 = (stScanned, some Err.integrity) := by
  decide

/-- C2 (code bug): re-scanning after the modification time of the tracked file
advanced from 100 to 150 does not merely update `mtime`: the metadata probe
runs again for the already-indexed path (the probe log shows it), a second
insert is attempted for the same path, and the resulting integrity error
rolls back the transactions, losing even the mtime update — the state is
unchanged. -/
theorem claim2_mtime_rescan_reprobes_and_aborts :
    runScan stScanned "/m" [aFileTouched] 2000 = (stScanned, some Err.integrity) ∧
    scanProbeLog stScanned "/m" [aFileTouched] 2000 = ["/m/a.mp4"] := by
  decide

/-- C3: after `folder_add` succeeded for a path, a second `folder_add` for
the same path fails with an integrity violation, the store is unchanged by
the failed call, and the row for that path still carries the identifier the
first call assigned. -/
theorem claim3_folder_add_twice (st st1 : DB) (f f1 g : Folder)
    (h : folder_add st f = .ok (st1, f1)) (hg : g.path = f.path) :
    folder_add_run st1 g = (st1, some Err.integrity) ∧
    (st1.folders.find? (fun r => r.path == f.path)).map FolderRow.id = some f1.fid := by
  unfold folder_add at h
  split at h
  · exact absurd h (by simp)
  · rename_i hguard
    rw [Bool.not_eq_true] at hguard
    simp only [Except.ok.injEq, Prod.mk.injEq] at h
    obtain ⟨hst, hf⟩ := h
    have hnew : ((⟨st.nextFolderId, f.path, f.last_scan, f.remote⟩ : FolderRow).path == g.path) = true := by
      simp [hg]
    have hsecond : st1.folders.any (fun r => r.path == g.path) = true := by
      rw [← hst]
      simp only [List.any_append, List.any_cons, List.any_nil, Bool.or_false]
      rw [hnew, Bool.or_true]
    constructor
    · unfold folder_add_run folder_add
      rw [if_pos hsecond]
    · have hnone : st.folders.find? (fun r => r.path == f.path) = none := by
        rw [List.find?_eq_none]
        intro x hx
        have := (List.any_eq_false.mp hguard) x hx
        simpa using this
      rw [← hst, List.find?_append, hnone, Option.none_or]
      simp [← hf]

/-- C3 witness: adding `/a` to the empty store, then adding it again. -/
theorem claim3_witness :
    folder_add_run stOneFolder fFolder = (stOneFolder, some Err.integrity) ∧
    (stOneFolder.folders.find? (fun r => r.path == fFolder.path)).map FolderRow.id =
      some fFolderAdded.fid :=
  claim3_folder_add_twice dbEmpty stOneFolder fFolder fFolderAdded fFolder (by rfl) rfl

/-- C6 (code bug): `tag_link_get_by_vid` never returns a collection, empty
or otherwise — the query it executes references the column `vid_id` on the
`tag` table, which does not exist, so every call fails with an operational
error instead of yielding the empty list for a video with zero tags. -/
theorem claim6_tag_link_get_by_vid_always_errors (st : DB) (vid : Int) :
    tag_link_get_by_vid st vid = .error Err.operational := rfl

/-- C7 counterexample: a discovered entry that stat does not report as a
regular file, named with a recognized suffix and 150 MiB large, is not
skipped by `skip_file`, contradicting the claimed equivalence with the rule
that also skips non-regular files. -/
theorem claim7_counterexample :
    skip_file nonRegularBig = false ∧ skip_file_spec nonRegularBig = true := by
  decide

/-- C7 (amended): the scanner skips a discovered file if and only if its
name does not end, case-insensitively, in one of the recognized
video-container suffixes, or its size is below 100 MiB; `skip_file`
performs no regular-file check. -/
theorem claim7_skip_iff (f : FileInfo) :
    skip_file f = true ↔ (suffixMatch f.path = false ∨ f.size < min_size) := by
  unfold skip_file
  by_cases hs : suffixMatch f.path = false
  · simp [hs]
  · rw [if_neg hs]
    by_cases hlt : f.size < min_size
    · simp [hlt]
    · simp [hlt, hs]

/-- C8 counterexample: with folders inserted as `/b` then `/a`,
`folder_get_all` returns them in insertion order, which is not
lexicographic by path — its query has no ORDER BY clause. -/
theorem claim8_counterexample :
    (folder_get_all stTwoFolders).map Folder.path = ["/b", "/a"] ∧
    sortedByKey (fun s => s) ((folder_get_all stTwoFolders).map Folder.path) = false := by
  decide

/-- C8 (amended): `video_get_all` returns videos in lexicographic path
order and `tag_get_all` returns tags in lexicographic name order, but
`folder_get_all` returns folder rows in plain table order with no ordering
clause. -/
theorem claim8_list_order (st : DB) :
    sortedByKey (fun v => v.path) (video_get_all st) = true ∧
    sortedByKey (fun t => t.name) (tag_get_all st) = true ∧
    (folder_get_all st).map Folder.path = st.folders.map FolderRow.path := by
  refine ⟨?_, ?_, ?_⟩
  · rw [video_get_all, sortedByKey_map]
    exact sortByKey_sorted VideoRow.path st.videos
  · rw [tag_get_all, sortedByKey_map]
    exact sortByKey_sorted TagRow.name st.tagRows
  · rw [folder_get_all, List.map_map]
    rfl

/-- C4: deleting a folder removes every video owned by it (cascade through
`video.folder_id`), no surviving tag-link, person-link or program-link row
references such a video, and deleting a video directly likewise removes
every link row of the three kinds that references it. -/
theorem claim4_delete_cascades (st : DB) (fid : Int) (v : VideoRow)
    (hv : v ∈ st.videos) (hf : v.folder_id = fid) :
    (v ∉ (folder_delete_cascade st fid).videos ∧
     (∀ l ∈ (folder_delete_cascade st fid).tagLinks, l.vid_id ≠ v.id) ∧
     (∀ l ∈ (folder_delete_cascade st fid).personLinks, l.vid ≠ v.id) ∧
     (∀ l ∈ (folder_delete_cascade st fid).progLinks, l.vid_id ≠ v.id)) ∧
    ((∀ l ∈ (video_delete_cascade st v.id).tagLinks, l.vid_id ≠ v.id) ∧
     (∀ l ∈ (video_delete_cascade st v.id).personLinks, l.vid ≠ v.id) ∧
     (∀ l ∈ (video_delete_cascade st v.id).progLinks, l.vid_id ≠ v.id)) := by
  have hrem : v.id ∈ ((st.videos.filter (fun r => r.folder_id == fid)).map VideoRow.id) := by
    refine List.mem_map_of_mem VideoRow.id ?_
    rw [List.mem_filter]
    exact ⟨hv, by simp [hf]⟩
  refine ⟨⟨?_, ?_, ?_, ?_⟩, ?_, ?_, ?_⟩
  · intro hmem
    rw [folder_delete_cascade] at hmem
    simp only [List.mem_filter] at hmem
    simp [hf] at hmem
  · intro l hl
    rw [folder_delete_cascade] at hl
    simp only [List.mem_filter] at hl
    intro he
    have hc := hl.2
    rw [Bool.not_eq_true'] at hc
    rw [he] at hc
    rw [List.contains, List.elem_eq_true_of_mem hrem] at hc
    cases hc
  · intro l hl
    rw [folder_delete_cascade] at hl
    simp only [List.mem_filter] at hl
    intro he
    have hc := hl.2
    rw [Bool.not_eq_true'] at hc
    rw [he] at hc
    rw [List.contains, List.elem_eq_true_of_mem hrem] at hc
    cases hc
  · intro l hl
    rw [folder_delete_cascade] at hl
    simp only [List.mem_filter] at hl
    intro he
    have hc := hl.2
    rw [Bool.not_eq_true'] at hc
    rw [he] at hc
    rw [List.contains, List.elem_eq_true_of_mem hrem] at hc
    cases hc
  · intro l hl
    rw [video_delete_cascade] at hl
    simp only [List.mem_filter] at hl
    simpa using hl.2
  · intro l hl
    rw [video_delete_cascade] at hl
    simp only [List.mem_filter] at hl
    simpa using hl.2
  · intro l hl
    rw [video_delete_cascade] at hl
    simp only [List.mem_filter] at hl
    simpa using hl.2

/-- C4 witness: a store with one folder, one video and one link row of each
kind referencing that video. -/
theorem claim4_witness :
    (vRow ∉ (folder_delete_cascade stLinked 1).videos ∧
     (∀ l ∈ (folder_delete_cascade stLinked 1).tagLinks, l.vid_id ≠ vRow.id) ∧
     (∀ l ∈ (folder_delete_cascade stLinked 1).personLinks, l.vid ≠ vRow.id) ∧
     (∀ l ∈ (folder_delete_cascade stLinked 1).progLinks, l.vid_id ≠ vRow.id)) ∧
    ((∀ l ∈ (video_delete_cascade stLinked vRow.id).tagLinks, l.vid_id ≠ vRow.id) ∧
     (∀ l ∈ (video_delete_cascade stLinked vRow.id).personLinks, l.vid ≠ vRow.id) ∧
     (∀ l ∈ (video_delete_cascade stLinked vRow.id).progLinks, l.vid_id ≠ vRow.id)) :=
  claim4_delete_cascades stLinked 1 vRow (by decide) (by decide)

/-- C9: `video_get_all` decodes the `hidden` field of every returned record
from the `id` column, while `video_get_by_id` decodes it from the stored
`hidden` column, so for any stored row whose identifier differs from its
hidden flag the two operations return records for the same video that
disagree on `hidden` and are therefore unequal. -/
theorem claim9_get_all_hidden_from_id (st : DB) (r : VideoRow)
    (hm : r ∈ st.videos) (hn : (st.videos.map VideoRow.id).Nodup)
    (hne : r.id ≠ r.hidden) :
    rowToVideoAll r ∈ video_get_all st ∧
    video_get_by_id st r.id = some (rowToVideo r) ∧
    (rowToVideoAll r).hidden = r.id ∧
    (rowToVideo r).hidden = r.hidden ∧
    rowToVideoAll r ≠ rowToVideo r := by
  refine ⟨?_, ?_, rfl, rfl, ?_⟩
  · rw [video_get_all]
    exact List.mem_map_of_mem rowToVideoAll ((mem_sortByKey VideoRow.path r st.videos).mpr hm)
  · rw [video_get_by_id, find?_id_of_nodup st.videos r hn hm]
    rfl
  · intro heq
    have := congrArg Video.hidden heq
    simp only [rowToVideoAll, rowToVideo] at this
    exact hne this

/-- C9 witness: the single stored row `vRow` has identifier 1 and hidden
flag 0, and the two read paths disagree on it. -/
theorem claim9_witness :
    rowToVideoAll vRow ∈ video_get_all stOneVideo ∧
    video_get_by_id stOneVideo vRow.id = some (rowToVideo vRow) ∧
    (rowToVideoAll vRow).hidden = vRow.id ∧
    (rowToVideo vRow).hidden = vRow.hidden ∧
    rowToVideoAll vRow ≠ rowToVideo vRow :=
  claim9_get_all_hidden_from_id stOneVideo vRow (by decide) (by decide) (by decide)

/-- C10: whatever title, checksum, hidden flag and creation time the caller
put into the `Video` object, a successful `video_add` appends exactly one
row whose `title` is the empty string, whose `cksum` is NULL, whose `hidden`
is 0 and whose `added` is the insertion clock, and it overwrites the
`added` field of the object with that same clock. -/
theorem claim10_video_add_defaults (st : DB) (v : Video) (now : Int)
    (st2 : DB) (v2 : Video) (h : video_add st v now = .ok (st2, v2)) :
    v2.added = now ∧
    ∃ r : VideoRow, st2.videos = st.videos ++ [r] ∧
      r.title = "" ∧ r.cksum = none ∧ r.hidden = 0 ∧ r.added = now := by
  unfold video_add at h
  split at h
  · exact absurd h (by simp)
  · split at h
    · exact absurd h (by simp)
    · split at h
      · exact absurd h (by simp)
      · split at h
        · exact absurd h (by simp)
        · simp only [Except.ok.injEq, Prod.mk.injEq] at h
          obtain ⟨hst, hv2⟩ := h
          constructor
          · rw [← hv2]
          · exact ⟨_, by rw [← hst], rfl, rfl, rfl, rfl⟩

/-- C10 witness: inserting `vJunk` — whose caller-supplied title, checksum,
hidden flag and added time are all junk — at clock 42. -/
theorem claim10_witness :
    (⟨1, 1, "/v.mp4", 42, 5, some "X", some "deadbeef", (some 1, some 2), some 9, 1⟩ : Video).added = 42 ∧
    ∃ r : VideoRow,
      (⟨[⟨1, "/a", none, false⟩],
        [⟨1, 1, "/v.mp4", 42, 5, "", none, some 1, some 2, some 9, 0⟩],
        [], [], [], [], 2, 2⟩ : DB).videos = stOneFolder.videos ++ [r] ∧
      r.title = "" ∧ r.cksum = none ∧ r.hidden = 0 ∧ r.added = 42 :=
  claim10_video_add_defaults stOneFolder vJunk 42
    ⟨[⟨1, "/a", none, false⟩],
     [⟨1, 1, "/v.mp4", 42, 5, "", none, some 1, some 2, some 9, 0⟩],
     [], [], [], [], 2, 2⟩
    ⟨1, 1, "/v.mp4", 42, 5, some "X", some "deadbeef", (some 1, some 2), some 9, 1⟩
    (by rfl)

/-- C5: for one invocation of `Scanner.scan` on a well-formed store, a
successful run commits a folder row for the root path whose `last_scan` is
the scan clock, stamped at tree-walk completion, while every other folder
row is untouched; a run that fails partway rolls the transaction back, so
the state — in particular every `last_scan`, still null if no scan ever
completed — keeps its previous value. -/
theorem claim5_last_scan_stamp (st : DB) (root : String) (files : List FileInfo)
    (now : Int) (hwf : DBwf st) :
    (∀ st2, runScan st root files now = (st2, none) →
       (∃ fr ∈ st2.folders, fr.path = root ∧ fr.last_scan = some now) ∧
       ∀ fr ∈ st.folders, fr.path ≠ root → fr ∈ st2.folders) ∧
    (∀ st2 e, runScan st root files now = (st2, some e) → st2 = st) := by
  obtain ⟨hids, hpaths, hlt⟩ := hwf
  constructor
  · intro st2 h
    unfold runScan at h
    rcases hsc : (scanT st root files now).1 with e | stq
    · rw [hsc] at h
      simp at h
    · rw [hsc] at h
      simp only [Prod.mk.injEq] at h
      rw [← h.1]
      clear h
      unfold scanT at hsc
      rcases hroot : folder_get_by_path st root with _ | rt
      · -- no folder row yet: one is created before the walk
        rw [hroot] at hsc
        dsimp only at hsc
        rcases hadd : folder_add st ⟨-1, root, none, false⟩ with e | p
        · rw [hadd] at hsc
          simp at hsc
        · obtain ⟨st0, rootf⟩ := p
          rw [hadd] at hsc
          dsimp only at hsc
          unfold folder_add at hadd
          split at hadd
          · exact absurd hadd (by simp)
          · simp only [Except.ok.injEq, Prod.mk.injEq] at hadd
            obtain ⟨hst0, hrootf⟩ := hadd
            rcases hpf : (processFiles rootf.fid now st0 files).1 with e | st1
            · rw [hpf] at hsc
              simp [Except.map] at hsc
            · rw [hpf] at hsc
              simp only [Except.map, Except.ok.injEq] at hsc
              have hfol := (processFiles_folders rootf.fid now files st0 st1 hpf).1
              have hfid : rootf.fid = st.nextFolderId := by
                rw [← hrootf]
              have hfolders0 : st0.folders =
                  st.folders ++ [⟨st.nextFolderId, root, none, false⟩] := by
                rw [← hst0]
              rw [← hsc]
              unfold folder_update_scan
              constructor
              · refine ⟨⟨st.nextFolderId, root, some now, false⟩, ?_, rfl, rfl⟩
                rw [hfol, hfolders0, hfid]
                have hmem : (⟨st.nextFolderId, root, none, false⟩ : FolderRow) ∈
                    st.folders ++ [⟨st.nextFolderId, root, none, false⟩] :=
                  List.mem_append_right _ (List.mem_singleton.mpr rfl)
                have := List.mem_map_of_mem
                  (fun r : FolderRow =>
                    if r.id == st.nextFolderId then { r with last_scan := some now } else r)
                  hmem
                simpa using this
              · intro fr hfr _
                have hne : fr.id ≠ st.nextFolderId := ne_of_lt (hlt fr hfr)
                have hmem : fr ∈ st.folders ++ [⟨st.nextFolderId, root, none, false⟩] :=
                  List.mem_append_left _ hfr
                have := List.mem_map_of_mem
                  (fun r : FolderRow =>
                    if r.id == st.nextFolderId then { r with last_scan := some now } else r)
                  hmem
                rw [hfol, hfolders0, hfid]
                simpa [hne] using this
      · -- folder row already present
        rw [hroot] at hsc
        dsimp only at hsc
        unfold folder_get_by_path at hroot
        rw [Option.map_eq_some'] at hroot
        obtain ⟨rrow, hfind, hdec⟩ := hroot
        have hrpath : rrow.path = root := by
          have := List.find?_some hfind
          simpa using this
        have hrmem : rrow ∈ st.folders := List.mem_of_find?_eq_some hfind
        have hfid : rt.fid = rrow.id := by rw [← hdec]
        rcases hpf : (processFiles rt.fid now st files).1 with e | st1
        · rw [hpf] at hsc
          simp [Except.map] at hsc
        · rw [hpf] at hsc
          simp only [Except.map, Except.ok.injEq] at hsc
          have hfol := (processFiles_folders rt.fid now files st st1 hpf).1
          rw [← hsc]
          unfold folder_update_scan
          constructor
          · refine ⟨{ rrow with last_scan := some now }, ?_, hrpath, rfl⟩
            rw [hfol, hfid]
            have := List.mem_map_of_mem
              (fun r : FolderRow =>
                if r.id == rrow.id then { r with last_scan := some now } else r)
              hrmem
            simpa using this
          · intro fr hfr hfrp
            have hne : fr.id ≠ rrow.id := by
              intro heq
              exact hfrp ((List.inj_on_of_nodup_map hids hfr hrmem heq) ▸ hrpath)
            have := List.mem_map_of_mem
              (fun r : FolderRow =>
                if r.id == rrow.id then { r with last_scan := some now } else r)
              hfr
            rw [hfol, hfid]
            simpa [hne] using this
  · intro st2 e h
    unfold runScan at h
    rcases hsc : (scanT st root files now).1 with e2 | stq
    · rw [hsc] at h
      simp only [Prod.mk.injEq] at h
      exact h.1.symm
    · rw [hsc] at h
      simp at h

/-- C5 witness: scanning `/m` with the single file `aFile` from the empty
(trivially well-formed) store at clock 1000. -/
theorem claim5_witness :
    (∀ st2, runScan dbEmpty "/m" [aFile] 1000 = (st2, none) →
       (∃ fr ∈ st2.folders, fr.path = "/m" ∧ fr.last_scan = some 1000) ∧
       ∀ fr ∈ dbEmpty.folders, fr.path ≠ "/m" → fr ∈ st2.folders) ∧
    (∀ st2 e, runScan dbEmpty "/m" [aFile] 1000 = (st2, some e) → st2 = dbEmpty) :=
  claim5_last_scan_stamp dbEmpty "/m" [aFile] 1000
    ⟨List.nodup_nil, List.nodup_nil, fun fr hfr => absurd hfr (List.not_mem_nil fr)⟩

end Hollywoo
